import Mathlib

/-!
Shallow embedding of the dedraPL/serializer repository
(src/MemberStorage.h and src/Serializer.h, C++17).

The registry maps a pointer-to-member of a class to a stored value (here a
string key); the Serializer mixin uses it to move member values to and from
an nlohmann::json document, resolving std::variant and std::shared_ptr
indirections.  Machine-level details are modelled as follows:

* a pointer-to-member is an opaque token (`Member.memberId`) paired with the
  owning class's `typeid(...).hash_code()` (`Member.classHash`); distinct
  members of one class get distinct tokens, and class hashes are taken
  injective per class;
* a heap-allocated `Member_t` node is its identity plus its own address
  (`MemberObj`), because `MemberHasher` hashes the node pointer itself;
* since every `registerMember` call allocates a fresh node and the hasher
  hashes addresses, inserts into the `unordered_map` never coalesce, so the
  table is modelled as a sequence of `(identity, value)` entries and lookup
  (`find_if`) as first match;
* dereferencing a null `shared_ptr` is undefined behavior in the source; it
  is modelled by the explicit outcome `Exec.ub`, which no catch block stops;
* the document library's scalar conversions are modelled as succeeding
  exactly when the document value's kind matches the target slot's kind.
-/

/-- Kinds of document (JSON) values, standing in for the C++ types a slot can
convert to and from. -/
inductive JKind where
  | knull
  | knum
  | kstr
  | kbool
  | kobj
deriving DecidableEq, Repr

/-- The external document tree (nlohmann::json restricted to the operations
the core calls: keyed children and whole-value assignment). -/
inductive Json where
  | null
  | num (n : Int)
  | str (s : String)
  | bool (b : Bool)
  | obj (fields : List (String × Json))
deriving Repr

/-- Exception conditions thrown inside the serializer's try blocks.
`nullIndirection` is listed because the spec mandates it; the code never
produces it (a null handle is dereferenced instead, see `Exec.ub`). -/
inductive SErr where
  | notRegistered
  | keyNotFound
  | wrongVariantArm
  | typeError
  | nullIndirection
deriving DecidableEq, Repr

def Json.kind : Json → JKind
  | .null => .knull
  | .num _ => .knum
  | .str _ => .kstr
  | .bool _ => .kbool
  | .obj _ => .kobj

/-- json::at(key): the child under the key; out_of_range (here `keyNotFound`)
when the key is absent, type_error on a non-object. -/
def Json.atKey : Json → String → Except SErr Json
  | .obj fs, k =>
    match fs.find? (fun p => p.1 == k) with
    | some p => .ok p.2
    | none => .error .keyNotFound
  | _, _ => .error .typeError

/-- Insert or replace a key in an object's field list (std::map semantics:
one entry per key). -/
def setKeyList (k : String) (v : Json) : List (String × Json) → List (String × Json)
  | [] => [(k, v)]
  | p :: ps => if p.1 == k then (k, v) :: ps else p :: setKeyList k v ps

/-- json::operator[](key) followed by assignment of a value: a null document
first becomes an object, an object gets the key inserted or replaced, any
other kind raises type_error. -/
def Json.setKeyE : Json → String → Json → Except SErr Json
  | .obj fs, k, v => .ok (.obj (setKeyList k v fs))
  | .null, k, v => .ok (.obj [(k, v)])
  | _, _, _ => .error .typeError

/-- Logical identity of a data member: the owning class's type hash together
with an opaque token for the pointer-to-member. -/
structure Member where
  classHash : Nat
  memberId : Nat
deriving DecidableEq, Repr

/-- A heap-allocated `Member_t` node as the registry stores it: its own
address plus the identity it denotes.  `new Member_t(arg)` yields a fresh
address on every call, even for the same `arg`. -/
structure MemberObj where
  addr : Nat
  ident : Member
deriving DecidableEq, Repr

namespace Member_t

/-- `Member_t::isEqual`: the class hashes are compared first; on a match the
stored pointers-to-member are compared.  Only the node's contents are read,
never its address. -/
def isEqual (lhs rhs : MemberObj) : Bool :=
  if lhs.ident.classHash == rhs.ident.classHash then
    lhs.ident.memberId == rhs.ident.memberId
  else
    false

end Member_t

namespace MemberStorageBase

/-- `MemberStorageBase::MemberHasher`: `reinterpret_cast<uintptr_t>(val)`,
i.e. the address of the registry-internal node, ignoring its contents. -/
def MemberHasher (val : MemberObj) : Nat :=
  val.addr

/-- `MemberStorageBase::MemberEqual`: delegates to `isEqual` of the first
node. -/
def MemberEqual (val1 val2 : MemberObj) : Bool :=
  Member_t.isEqual val1 val2

end MemberStorageBase

namespace MemberStorage

/-- The static per-(T, StoredType) table.  Keys are heap nodes; the hasher
hashes node addresses and every registration allocates a fresh node, so
inserts never coalesce and the table behaves as a sequence of
(identity, value) entries. -/
abbrev Storage := List (Member × String)

/-- `MemberStorage::get`: a linear `find_if` over the table comparing the
class hash and then the member pointer; throws a runtime_error ("No storage
for ...", modelled `notRegistered`) when no entry matches. -/
def get (storage : Storage) (arg : Member) : Except SErr String :=
  match storage.find? (fun p => p.1 == arg) with
  | some p => .ok p.2
  | none => .error .notRegistered

/-- `MemberStorage::registerMember`: `storage[new Member_t(arg)] = value;
return true;`.  The fresh node's address never hashes to an existing key's
bucket as that key, so the bracket operator inserts a new entry
unconditionally, and the function returns true unconditionally. -/
def registerMember (storage : Storage) (arg : Member) (value : String) :
    Storage × Bool :=
  (storage ++ [(arg, value)], true)

end MemberStorage

namespace MemberStorageBase

/-- The per-class `static std::once_flag` together with the singleton table
it guards, plus an instrumentation counter of how many times `InitMembers`
has run. -/
structure OnceState where
  flag : Bool
  storage : MemberStorage.Storage
  runs : Nat
deriving Repr, DecidableEq

/-- A concrete class's `InitMembers` override: one `registerMember` call per
declared member (the SERIALIZER_ADD_MEMBER lines), applied in order. -/
def InitMembers (decls : List (Member × String))
    (storage : MemberStorage.Storage) : MemberStorage.Storage :=
  decls.foldl (fun st p => (MemberStorage.registerMember st p.1 p.2).1) storage

/-- `MemberStorageBase::callInitMembers`: `std::call_once` on the class's
static flag; the first call runs `InitMembers` to completion, every later
call is a no-op. -/
def callInitMembers (decls : List (Member × String)) (s : OnceState) :
    OnceState :=
  if s.flag then s
  else { flag := true, storage := InitMembers decls s.storage, runs := s.runs + 1 }

end MemberStorageBase

/-- The run-time value of a data member, as far as the serializer
distinguishes it: a plain value of some kind, a std::variant (arm kinds,
active arm index, active arm's value), or a std::shared_ptr (pointee kind,
null or holding a value). -/
inductive MemberValue where
  | plain (k : JKind) (v : Json)
  | variant (arms : List JKind) (active : Nat) (v : Json)
  | ptr (k : JKind) (v : Option Json)
deriving Repr

/-- Outcome of a code fragment inside a try block: a normal value, a thrown
std::exception, or undefined behavior (the null shared_ptr dereference),
which no catch block can contain. -/
inductive Exec (α : Type) where
  | ok (a : α)
  | exn (e : SErr)
  | ub
deriving Repr

/-- Observable outcome of a helper whose whole body sits in try/catch with
`handleException` (which swallows every std::exception: its rethrow is
commented out): a normal return, or undefined behavior. -/
inductive Ret (α : Type) where
  | ok (a : α)
  | ub
deriving Repr

/-- An instance of the serialized class: its member values, indexed by the
member token. -/
abbrev Obj := Nat → MemberValue

def Obj.update (o : Obj) (mid : Nat) (v : MemberValue) : Obj :=
  fun m => if m = mid then v else o m

namespace Serializer

/-- `getMemberRef` (const overload), read direction: a variant member goes
through `std::get` on the annotated arm (bad_variant_access when a different
arm is active), a shared_ptr member dereferences the handle (undefined
behavior when null), anything else is the member itself.  The annotation is
the `_TargetType` template argument; for a variant member C++ overload
resolution forces it to name one arm, so the `none` case on a variant is
ill-formed in the source (it would not compile) and is never exercised. -/
def getMemberRef (anno : Option Nat) : MemberValue → Exec Json
  | .plain _ v => .ok v
  | .variant _ active v =>
    match anno with
    | some i => if active = i then .ok v else .exn .wrongVariantArm
    | none => .exn .wrongVariantArm
  | .ptr _ (some v) => .ok v
  | .ptr _ none => .ub

/-- Does the document library convert `j` into a slot of kind `k`?
(json conversion: type_error on a kind mismatch.) -/
def convertsTo (k : JKind) (j : Json) : Bool :=
  j.kind == k

/-- `getMemberRef` (mutable overload) followed by `json::get_to`: obtain a
reference to the resolved storage location (same resolution and failure
points as the read direction), then convert the document value into it; a
conversion type_error leaves the member untouched. -/
def get_to (anno : Option Nat) (j : Json) : MemberValue → Exec MemberValue
  | .plain k _ =>
    if convertsTo k j then .ok (.plain k j) else .exn .typeError
  | .variant arms active _ =>
    match anno with
    | some i =>
      if active = i then
        if convertsTo (arms.getD i .knull) j then .ok (.variant arms active j)
        else .exn .typeError
      else .exn .wrongVariantArm
    | none => .exn .wrongVariantArm
  | .ptr k (some _) =>
    if convertsTo k j then .ok (.ptr k (some j)) else .exn .typeError
  | .ptr _ none => .ub

/-- Body of the static `Serializer::to_json_simple` before the catch: look up
the member's key, resolve the member reference, store the value under the
key.  C++17 sequences the right-hand side of the assignment before the
`operator[]` insertion, so a throw from `getMemberRef` leaves the document
untouched. -/
def to_json_simpleCore (storage : MemberStorage.Storage) (target : Json)
    (arg : Member) (anno : Option Nat) (inst : Obj) : Exec Json :=
  match MemberStorage.get storage arg with
  | .error e => .exn e
  | .ok name =>
    match getMemberRef anno (inst arg.memberId) with
    | .ok v =>
      match target.setKeyE name v with
      | .ok t => .ok t
      | .error e => .exn e
    | .exn e => .exn e
    | .ub => .ub

/-- `Serializer::to_json_simple` as the caller observes it: any
std::exception from the body is passed to `handleException`, which swallows
it, so the helper returns normally with the document unchanged. -/
def to_json_simple (storage : MemberStorage.Storage) (target : Json)
    (arg : Member) (anno : Option Nat) (inst : Obj) : Ret Json :=
  match to_json_simpleCore storage target arg anno inst with
  | .ok t => .ok t
  | .exn _ => .ok target
  | .ub => .ub

/-- Body of the static `Serializer::from_json_simple` before the catch: look
up the member's key, fetch the child under it (`json::at`, evaluated before
its argument's `getMemberRef` per C++17 sequencing of the call's postfix
expression), resolve the member reference and convert the child into it. -/
def from_json_simpleCore (storage : MemberStorage.Storage) (source : Json)
    (arg : Member) (anno : Option Nat) (inst : Obj) : Exec Obj :=
  match MemberStorage.get storage arg with
  | .error e => .exn e
  | .ok name =>
    match source.atKey name with
    | .error e => .exn e
    | .ok child =>
      match get_to anno child (inst arg.memberId) with
      | .ok v => .ok (Obj.update inst arg.memberId v)
      | .exn e => .exn e
      | .ub => .ub

/-- `Serializer::from_json_simple` as the caller observes it: every
std::exception is swallowed by `handleException`, leaving the instance as it
was. -/
def from_json_simple (storage : MemberStorage.Storage) (source : Json)
    (arg : Member) (anno : Option Nat) (inst : Obj) : Ret Obj :=
  match from_json_simpleCore storage source arg anno inst with
  | .ok o => .ok o
  | .exn _ => .ok inst
  | .ub => .ub

/-- Body of `Serializer::get_json_for_property` before the catch: key lookup
then `json::at`. -/
def get_json_for_propertyCore (storage : MemberStorage.Storage)
    (source : Json) (arg : Member) : Except SErr Json :=
  match MemberStorage.get storage arg with
  | .error e => .error e
  | .ok name => source.atKey name

/-- `Serializer::get_json_for_property`: the body's exceptions are all caught
(`handleException` swallows) and the catch arm returns a default-constructed
(null) json; no code path can throw or dereference a handle. -/
def get_json_for_property (storage : MemberStorage.Storage) (source : Json)
    (arg : Member) : Json :=
  match get_json_for_propertyCore storage source arg with
  | .ok j => j
  | .error _ => Json.null

/-- One field of a concrete class's to_json/from_json override: the member
token and the `_TargetType` annotation its helper calls pass (an arm index
for a variant member, nothing otherwise). -/
structure FieldDecl where
  mid : Nat
  anno : Option Nat
deriving DecidableEq, Repr

/-- A concrete class's `to_json` override: one `to_json_simple` call per
field, in declaration order, threading the document being built. -/
def toDocument (storage : MemberStorage.Storage) (cls : Nat) (inst : Obj) :
    List FieldDecl → Json → Ret Json
  | [], acc => .ok acc
  | f :: fs, acc =>
    match to_json_simple storage acc ⟨cls, f.mid⟩ f.anno inst with
    | .ok acc2 => toDocument storage cls inst fs acc2
    | .ub => .ub

/-- A concrete class's `from_json` override: one `from_json_simple` call per
field, in declaration order, threading the instance being filled. -/
def fromDocument (storage : MemberStorage.Storage) (cls : Nat)
    (source : Json) : List FieldDecl → Obj → Ret Obj
  | [], inst => .ok inst
  | f :: fs, inst =>
    match from_json_simple storage source ⟨cls, f.mid⟩ f.anno inst with
    | .ok inst2 => fromDocument storage cls source fs inst2
    | .ub => .ub

end Serializer

/-- The member's stored value agrees with its declared kind (and a shared_ptr
is non-null): the "valid field values" for which serialization is faithful. -/
def MemberValue.wf : MemberValue → Bool
  | .plain k v => v.kind == k
  | .variant arms a v => v.kind == arms.getD a .knull
  | .ptr k (some v) => v.kind == k
  | .ptr _ none => false

/-- Two member values occupy the same declared C++ slot: same shape, same
kinds, same active variant arm, both handles non-null. -/
def MemberValue.sameShape : MemberValue → MemberValue → Bool
  | .plain k _, .plain k2 _ => k == k2
  | .variant arms a _, .variant arms2 a2 _ => arms == arms2 && a == a2
  | .ptr k (some _), .ptr k2 (some _) => k == k2
  | _, _ => false

/- Helper lemmas about the registry table. -/

theorem storage_get_of_not_mem (storage : MemberStorage.Storage) (arg : Member)
    (h : ∀ p ∈ storage, p.1 ≠ arg) :
    MemberStorage.get storage arg = .error .notRegistered := by
  have hf : storage.find? (fun p => p.1 == arg) = none := by
    rw [List.find?_eq_none]
    intro p hp
    simpa using h p hp
  simp [MemberStorage.get, hf]

theorem storage_get_of_mem (storage : MemberStorage.Storage) (m : Member)
    (v : String) (hmem : (m, v) ∈ storage)
    (huniq : ∀ p ∈ storage, p.1 = m → p.2 = v) :
    MemberStorage.get storage m = .ok v := by
  induction storage with
  | nil => simp at hmem
  | cons p ps ih =>
    by_cases hp : p.1 = m
    · have hv : p.2 = v := huniq p (by simp) hp
      simp [MemberStorage.get, List.find?_cons, hp, hv]
    · have hmem2 : (m, v) ∈ ps := by
        rcases List.mem_cons.mp hmem with h1 | h1
        · exact absurd (congrArg Prod.fst h1.symm) hp
        · exact h1
      have := ih hmem2 (fun q hq hq1 => huniq q (List.mem_cons_of_mem _ hq) hq1)
      simpa [MemberStorage.get, List.find?_cons, hp] using this

theorem InitMembers_eq_append (decls : List (Member × String))
    (st : MemberStorage.Storage) :
    MemberStorageBase.InitMembers decls st = st ++ decls := by
  induction decls generalizing st with
  | nil => simp [MemberStorageBase.InitMembers]
  | cons d ds ih =>
    have : MemberStorageBase.InitMembers (d :: ds) st
        = MemberStorageBase.InitMembers ds (st ++ [d]) := rfl
    rw [this, ih]
    simp

theorem countP_fst_eq_one (l : List (Member × String)) (p : Member × String)
    (hnd : (l.map Prod.fst).Nodup) (hp : p ∈ l) :
    l.countP (fun q => q.1 == p.1) = 1 := by
  induction l with
  | nil => simp at hp
  | cons d ds ih =>
    rw [List.map_cons, List.nodup_cons] at hnd
    obtain ⟨hd, hnd2⟩ := hnd
    rcases List.mem_cons.mp hp with rfl | hp2
    · rw [List.countP_cons]
      have h0 : ds.countP (fun q => q.1 == p.1) = 0 := by
        rw [List.countP_eq_zero]
        intro q hq
        simp only [beq_iff_eq]
        intro hq1
        exact hd (hq1 ▸ List.mem_map_of_mem Prod.fst hq)
      simp [h0]
    · rw [List.countP_cons]
      have hne : ¬(d.1 == p.1) = true := by
        simp only [beq_iff_eq]
        intro he
        exact hd (he ▸ List.mem_map_of_mem Prod.fst hp2)
      simp [hne, ih hnd2 hp2]

/-- C2: MemberStorage::get fails with the NotRegistered condition (a thrown
runtime_error) when no entry exists in the registry partition for the member
pointer, and returns the associated stored value for a registered member
pointer. -/
theorem c2_get_contract (storage : MemberStorage.Storage) (m : Member)
    (v : String) :
    ((∀ p ∈ storage, p.1 ≠ m) →
      MemberStorage.get storage m = .error .notRegistered) ∧
    ((m, v) ∈ storage → (∀ p ∈ storage, p.1 = m → p.2 = v) →
      MemberStorage.get storage m = .ok v) :=
  ⟨fun h => storage_get_of_not_mem storage m h,
   fun h1 h2 => storage_get_of_mem storage m v h1 h2⟩

/-- C2 witness: a one-entry table rejects an unknown member and serves the
registered one. -/
theorem c2_get_contract_witness :
    MemberStorage.get [(⟨1, 2⟩, "y")] ⟨1, 3⟩ = .error .notRegistered ∧
    MemberStorage.get [(⟨1, 2⟩, "y")] ⟨1, 2⟩ = .ok "y" :=
  ⟨(c2_get_contract [(⟨1, 2⟩, "y")] ⟨1, 3⟩ "y").1 (by decide),
   (c2_get_contract [(⟨1, 2⟩, "y")] ⟨1, 2⟩ "y").2 (by decide) (by decide)⟩

/-- C3 counterexample: with an empty registry, to_json_simple on an
unregistered member raises NotRegistered inside its body but returns
normally with the document unchanged — the condition is swallowed by
handleException, not surfaced to the caller as the claim states. -/
theorem c3_counterexample :
    Serializer.to_json_simpleCore [] (.obj []) ⟨0, 0⟩ none
        (fun _ => .plain .knum (.num 0)) = .exn .notRegistered ∧
    Serializer.to_json_simple [] (.obj []) ⟨0, 0⟩ none
        (fun _ => .plain .knum (.num 0)) = .ok (.obj []) :=
  ⟨rfl, rfl⟩

/-- C3 amended: for every member pointer with no entry in the registry
partition, to_json_simple raises the NotRegistered condition inside its body,
but handleException swallows it (its rethrow is commented out), so the caller
observes a normal return with the document unchanged rather than a
propagated exception. -/
theorem c3_unregistered_swallowed (storage : MemberStorage.Storage)
    (target : Json) (arg : Member) (anno : Option Nat) (inst : Obj)
    (h : ∀ p ∈ storage, p.1 ≠ arg) :
    Serializer.to_json_simpleCore storage target arg anno inst
        = .exn .notRegistered ∧
    Serializer.to_json_simple storage target arg anno inst = .ok target := by
  have hg := storage_get_of_not_mem storage arg h
  exact ⟨by simp [Serializer.to_json_simpleCore, hg],
         by simp [Serializer.to_json_simple, Serializer.to_json_simpleCore, hg]⟩

/-- C3 amended witness: concrete one-entry registry, different member. -/
theorem c3_unregistered_swallowed_witness :
    Serializer.to_json_simpleCore [(⟨0, 1⟩, "z")] (.obj []) ⟨0, 0⟩ none
        (fun _ => .plain .knum (.num 0)) = .exn .notRegistered ∧
    Serializer.to_json_simple [(⟨0, 1⟩, "z")] (.obj []) ⟨0, 0⟩ none
        (fun _ => .plain .knum (.num 0)) = .ok (.obj []) :=
  c3_unregistered_swallowed [(⟨0, 1⟩, "z")] (.obj []) ⟨0, 0⟩ none
    (fun _ => .plain .knum (.num 0)) (by decide)

/-- C4 counterexample: registering the same member twice inserts a second
entry and still returns true, so the insertion is not conditional on absence,
the boolean does not report it, and two entries for one identity coexist. -/
theorem c4_counterexample :
    (MemberStorage.registerMember
        (MemberStorage.registerMember [] ⟨0, 0⟩ "a").1 ⟨0, 0⟩ "b").2 = true ∧
    ((MemberStorage.registerMember
        (MemberStorage.registerMember [] ⟨0, 0⟩ "a").1 ⟨0, 0⟩ "b").1.countP
        (fun q => q.1 == (⟨0, 0⟩ : Member))) = 2 := by
  decide

/-- C4 amended: registerMember inserts unconditionally (a fresh node never
matches an existing key under the address hasher) and always returns true;
each call increments the entry count for its identity and leaves other
identities' counts unchanged, so at most one entry per identity holds only
when each identity is registered at most once. -/
theorem c4_registerMember_always_inserts (storage : MemberStorage.Storage)
    (m : Member) (v : String) :
    (MemberStorage.registerMember storage m v).2 = true ∧
    (MemberStorage.registerMember storage m v).1.countP (fun q => q.1 == m)
      = storage.countP (fun q => q.1 == m) + 1 ∧
    ∀ m2 : Member, m2 ≠ m →
      (MemberStorage.registerMember storage m v).1.countP
          (fun q => q.1 == m2)
        = storage.countP (fun q => q.1 == m2) := by
  refine ⟨rfl, ?_, ?_⟩
  · simp [MemberStorage.registerMember, List.countP_append, List.countP_cons]
  · intro m2 h
    have h2 : ¬((m == m2) = true) := by simpa using fun e => h e.symm
    simp [MemberStorage.registerMember, List.countP_append, List.countP_cons, h2]

/-- C4 amended witness: concrete duplicate registration. -/
theorem c4_registerMember_always_inserts_witness :
    (MemberStorage.registerMember [((⟨0, 0⟩ : Member), "a")] ⟨0, 0⟩ "b").2
        = true ∧
    (MemberStorage.registerMember [((⟨0, 0⟩ : Member), "a")] ⟨0, 0⟩ "b").1.countP
        (fun q => q.1 == (⟨0, 0⟩ : Member))
      = [((⟨0, 0⟩ : Member), "a")].countP (fun q => q.1 == (⟨0, 0⟩ : Member)) + 1 ∧
    (MemberStorage.registerMember [((⟨0, 0⟩ : Member), "a")] ⟨0, 0⟩ "b").1.countP
        (fun q => q.1 == (⟨1, 1⟩ : Member))
      = [((⟨0, 0⟩ : Member), "a")].countP (fun q => q.1 == (⟨1, 1⟩ : Member)) :=
  ⟨(c4_registerMember_always_inserts [((⟨0, 0⟩ : Member), "a")] ⟨0, 0⟩ "b").1,
   (c4_registerMember_always_inserts [((⟨0, 0⟩ : Member), "a")] ⟨0, 0⟩ "b").2.1,
   (c4_registerMember_always_inserts [((⟨0, 0⟩ : Member), "a")] ⟨0, 0⟩ "b").2.2
     ⟨1, 1⟩ (by decide)⟩

/-- C5 counterexample: two separately allocated registry nodes denoting the
same member of the same class compare equal under Member_t::isEqual, yet
MemberHasher hashes each to its own address, so their hashes differ and the
hash is not a function of the logical identity, contrary to the claim. -/
theorem c5_counterexample :
    Member_t.isEqual ⟨10, ⟨1, 2⟩⟩ ⟨20, ⟨1, 2⟩⟩ = true ∧
    MemberStorageBase.MemberHasher ⟨10, ⟨1, 2⟩⟩ ≠
      MemberStorageBase.MemberHasher ⟨20, ⟨1, 2⟩⟩ := by
  decide

/-- C5 amended: the registry's equality predicate holds exactly when the two
nodes denote the same (class, member) logical identity — in particular two
separately constructed nodes from the same pointer-to-member compare equal —
but the registry's hash function returns the node's own address, so equal
identities do not in general receive equal hashes. -/
theorem c5_identity_equal_address_hash (o1 o2 : MemberObj) :
    (Member_t.isEqual o1 o2 = true ↔ o1.ident = o2.ident) ∧
    MemberStorageBase.MemberHasher o1 = o1.addr ∧
    MemberStorageBase.MemberEqual o1 o2 = Member_t.isEqual o1 o2 := by
  refine ⟨?_, rfl, rfl⟩
  rcases o1 with ⟨a1, ⟨c1, m1⟩⟩
  rcases o2 with ⟨a2, ⟨c2, m2⟩⟩
  by_cases h : c1 = c2 <;> simp [Member_t.isEqual, Member.mk.injEq, h]

/-- C6: calling callInitMembers any number n ≥ 1 of times from the initial
state runs InitMembers exactly once (the run counter ends at 1), the registry
then holds exactly one entry per declared member (a class declares each
member once), and a further call is a no-op rather than a failure. -/
theorem c6_callInitMembers_once (decls : List (Member × String)) (n : Nat)
    (hn : 1 ≤ n) (hnd : (decls.map Prod.fst).Nodup) :
    (MemberStorageBase.callInitMembers decls)^[n]
        ⟨false, [], 0⟩ = ⟨true, decls, 1⟩ ∧
    (∀ p ∈ decls, decls.countP (fun q => q.1 == p.1) = 1) ∧
    MemberStorageBase.callInitMembers decls ⟨true, decls, 1⟩
      = ⟨true, decls, 1⟩ := by
  have hfix : MemberStorageBase.callInitMembers decls ⟨true, decls, 1⟩
      = ⟨true, decls, 1⟩ := by
    simp [MemberStorageBase.callInitMembers]
  refine ⟨?_, fun p hp => countP_fst_eq_one decls p hnd hp, hfix⟩
  obtain ⟨k, rfl⟩ : ∃ k, n = k + 1 := ⟨n - 1, by omega⟩
  rw [Function.iterate_succ_apply]
  have h1 : MemberStorageBase.callInitMembers decls ⟨false, [], 0⟩
      = ⟨true, decls, 1⟩ := by
    simp [MemberStorageBase.callInitMembers, InitMembers_eq_append]
  rw [h1, Function.iterate_fixed hfix]

/-- C6 witness: a two-member class initialized three times. -/
theorem c6_callInitMembers_once_witness :
    (MemberStorageBase.callInitMembers
        [((⟨5, 0⟩ : Member), "x"), (⟨5, 1⟩, "y")])^[3]
        ⟨false, [], 0⟩
      = ⟨true, [(⟨5, 0⟩, "x"), (⟨5, 1⟩, "y")], 1⟩ ∧
    ([((⟨5, 0⟩ : Member), "x"), (⟨5, 1⟩, "y")].countP
        (fun q => q.1 == (⟨5, 0⟩ : Member))) = 1 ∧
    MemberStorageBase.callInitMembers
        [((⟨5, 0⟩ : Member), "x"), (⟨5, 1⟩, "y")]
        ⟨true, [(⟨5, 0⟩, "x"), (⟨5, 1⟩, "y")], 1⟩
      = ⟨true, [(⟨5, 0⟩, "x"), (⟨5, 1⟩, "y")], 1⟩ :=
  ⟨(c6_callInitMembers_once [((⟨5, 0⟩ : Member), "x"), (⟨5, 1⟩, "y")] 3
      (by decide) (by decide)).1,
   (c6_callInitMembers_once [((⟨5, 0⟩ : Member), "x"), (⟨5, 1⟩, "y")] 3
      (by decide) (by decide)).2.1 (⟨5, 0⟩, "x") (by decide),
   (c6_callInitMembers_once [((⟨5, 0⟩ : Member), "x"), (⟨5, 1⟩, "y")] 3
      (by decide) (by decide)).2.2⟩

/-- C7: for a registered member, a source document lacking the member's key
makes from_json_simple return normally with the instance unchanged (json::at
throws, handleException swallows), and an ill-typed or otherwise unconvertible
value under the key degrades the same way. -/
theorem c7_missing_key_tolerance (storage : MemberStorage.Storage)
    (source : Json) (arg : Member) (anno : Option Nat) (inst : Obj)
    (name : String) (hreg : MemberStorage.get storage arg = .ok name) :
    (∀ e, source.atKey name = .error e →
      Serializer.from_json_simple storage source arg anno inst = .ok inst) ∧
    (∀ child e2, source.atKey name = .ok child →
      Serializer.get_to anno child (inst arg.memberId) = .exn e2 →
      Serializer.from_json_simple storage source arg anno inst = .ok inst) := by
  constructor
  · intro e he
    simp [Serializer.from_json_simple, Serializer.from_json_simpleCore, hreg, he]
  · intro child e2 hc hg
    simp [Serializer.from_json_simple, Serializer.from_json_simpleCore, hreg,
          hc, hg]

/-- C7 witness: key "Foo" absent, then key "Foo" present with a string where
a number is expected; both leave the member at its prior value. -/
theorem c7_missing_key_tolerance_witness :
    Serializer.from_json_simple [(⟨0, 0⟩, "Foo")] (.obj []) ⟨0, 0⟩ none
        (fun _ => .plain .knum (.num 0))
      = .ok (fun _ => .plain .knum (.num 0)) ∧
    Serializer.from_json_simple [(⟨0, 0⟩, "Foo")] (.obj [("Foo", .str "s")])
        ⟨0, 0⟩ none (fun _ => .plain .knum (.num 0))
      = .ok (fun _ => .plain .knum (.num 0)) :=
  ⟨(c7_missing_key_tolerance [(⟨0, 0⟩, "Foo")] (.obj []) ⟨0, 0⟩ none
      (fun _ => .plain .knum (.num 0)) "Foo" rfl).1 .keyNotFound rfl,
   (c7_missing_key_tolerance [(⟨0, 0⟩, "Foo")] (.obj [("Foo", .str "s")])
      ⟨0, 0⟩ none (fun _ => .plain .knum (.num 0)) "Foo" rfl).2
     (.str "s") .typeError rfl rfl⟩

/-- C8: a registered variant member currently holding arm b: to_json_simple
annotated with a non-active arm a raises the WrongVariantArm condition
(bad_variant_access) in its body and returns with the document unchanged (no
key inserted), while the call annotated with the active arm b stores the
arm's value under the member's registered key. -/
theorem c8_variant_arm (storage : MemberStorage.Storage)
    (l : List (String × Json)) (arg : Member) (name : String)
    (arms : List JKind) (a b : Nat) (v : Json) (inst : Obj)
    (hreg : MemberStorage.get storage arg = .ok name)
    (hmem : inst arg.memberId = .variant arms b v)
    (hne : a ≠ b) :
    Serializer.to_json_simpleCore storage (.obj l) arg (some a) inst
        = .exn .wrongVariantArm ∧
    Serializer.to_json_simple storage (.obj l) arg (some a) inst
        = .ok (.obj l) ∧
    Serializer.to_json_simple storage (.obj l) arg (some b) inst
        = .ok (.obj (setKeyList name v l)) := by
  refine ⟨?_, ?_, ?_⟩ <;>
    simp [Serializer.to_json_simple, Serializer.to_json_simpleCore, hreg, hmem,
          Serializer.getMemberRef, Json.setKeyE, Ne.symm hne]

/-- C8 witness: variant over (number | string) holding arm 1 (a string);
writing arm 0 changes nothing, writing arm 1 stores the string under "w". -/
theorem c8_variant_arm_witness :
    Serializer.to_json_simpleCore [(⟨0, 0⟩, "w")] (.obj []) ⟨0, 0⟩ (some 0)
        (fun _ => .variant [.knum, .kstr] 1 (.str "s"))
      = .exn .wrongVariantArm ∧
    Serializer.to_json_simple [(⟨0, 0⟩, "w")] (.obj []) ⟨0, 0⟩ (some 0)
        (fun _ => .variant [.knum, .kstr] 1 (.str "s")) = .ok (.obj []) ∧
    Serializer.to_json_simple [(⟨0, 0⟩, "w")] (.obj []) ⟨0, 0⟩ (some 1)
        (fun _ => .variant [.knum, .kstr] 1 (.str "s"))
      = .ok (.obj [("w", .str "s")]) := by
  have h := c8_variant_arm [(⟨0, 0⟩, "w")] [] ⟨0, 0⟩ "w" [.knum, .kstr] 0 1
    (.str "s") (fun _ => .variant [.knum, .kstr] 1 (.str "s")) rfl rfl
    (by decide)
  exact ⟨h.1, h.2.1, h.2.2⟩

/-- C9: evaluating the code at the failing input: a registered shared_ptr
member holding null makes both to_json_simple and from_json_simple
dereference the null handle — undefined behavior that no catch contains, not
a thrown NullIndirection condition and not a document fragment — while a
non-null handle to a value serializes exactly as a plain field holding that
value. -/
theorem c9_null_handle_ub :
    Serializer.to_json_simpleCore [(⟨0, 0⟩, "p")] (.obj []) ⟨0, 0⟩ none
        (fun _ => .ptr .knum none) = .ub ∧
    Serializer.to_json_simple [(⟨0, 0⟩, "p")] (.obj []) ⟨0, 0⟩ none
        (fun _ => .ptr .knum none) = .ub ∧
    Serializer.from_json_simple [(⟨0, 0⟩, "p")] (.obj [("p", .num 7)]) ⟨0, 0⟩
        none (fun _ => .ptr .knum none) = .ub ∧
    Serializer.to_json_simpleCore [(⟨0, 0⟩, "p")] (.obj []) ⟨0, 0⟩ none
        (fun _ => .ptr .knum none) ≠ .exn .nullIndirection ∧
    Serializer.to_json_simple [(⟨0, 0⟩, "p")] (.obj []) ⟨0, 0⟩ none
        (fun _ => .ptr .knum (some (.num 7)))
      = Serializer.to_json_simple [(⟨0, 0⟩, "p")] (.obj []) ⟨0, 0⟩ none
        (fun _ => .plain .knum (.num 7)) ∧
    Serializer.to_json_simple [(⟨0, 0⟩, "p")] (.obj []) ⟨0, 0⟩ none
        (fun _ => .ptr .knum (some (.num 7))) = .ok (.obj [("p", .num 7)]) :=
  ⟨rfl, rfl, rfl, fun h => Exec.noConfusion h, rfl, rfl⟩

/-- C10: get_json_for_property never lets an exception reach the caller: an
unregistered member or a source lacking the member's key yields a
default-constructed (null) json, and otherwise it returns the child document
stored under the member's registered key. -/
theorem c10_get_json_for_property (storage : MemberStorage.Storage)
    (source : Json) (arg : Member) :
    ((∀ p ∈ storage, p.1 ≠ arg) →
      Serializer.get_json_for_property storage source arg = Json.null) ∧
    (∀ name, MemberStorage.get storage arg = .ok name →
      (∀ e, source.atKey name = .error e →
        Serializer.get_json_for_property storage source arg = Json.null) ∧
      (∀ child, source.atKey name = .ok child →
        Serializer.get_json_for_property storage source arg = child)) := by
  constructor
  · intro h
    simp [Serializer.get_json_for_property,
          Serializer.get_json_for_propertyCore,
          storage_get_of_not_mem storage arg h]
  · intro name hname
    constructor
    · intro e he
      simp [Serializer.get_json_for_property,
            Serializer.get_json_for_propertyCore, hname, he]
    · intro child hc
      simp [Serializer.get_json_for_property,
            Serializer.get_json_for_propertyCore, hname, hc]

/-- C10 witness: unregistered member, registered member with the key absent,
and registered member with a child under the key. -/
theorem c10_get_json_for_property_witness :
    Serializer.get_json_for_property [(⟨0, 1⟩, "a")] (.obj []) ⟨0, 0⟩
        = Json.null ∧
    Serializer.get_json_for_property [(⟨0, 0⟩, "a")] (.obj []) ⟨0, 0⟩
        = Json.null ∧
    Serializer.get_json_for_property [(⟨0, 0⟩, "a")] (.obj [("a", .num 3)])
        ⟨0, 0⟩ = .num 3 :=
  ⟨(c10_get_json_for_property [(⟨0, 1⟩, "a")] (.obj []) ⟨0, 0⟩).1 (by decide),
   ((c10_get_json_for_property [(⟨0, 0⟩, "a")] (.obj []) ⟨0, 0⟩).2 "a"
      rfl).1 .keyNotFound rfl,
   ((c10_get_json_for_property [(⟨0, 0⟩, "a")] (.obj [("a", .num 3)])
      ⟨0, 0⟩).2 "a" rfl).2 (.num 3) rfl⟩

/- Helper lemmas for the round-trip property. -/

theorem find?_setKeyList_same (k : String) (v : Json)
    (l : List (String × Json)) :
    (setKeyList k v l).find? (fun p => p.1 == k) = some (k, v) := by
  induction l with
  | nil => simp [setKeyList]
  | cons p ps ih =>
    by_cases h : p.1 = k
    · simp [setKeyList, h]
    · simp [setKeyList, h, List.find?_cons, ih]

theorem find?_setKeyList_other (k k2 : String) (hne : k2 ≠ k) (v : Json)
    (l : List (String × Json)) :
    (setKeyList k v l).find? (fun p => p.1 == k2)
      = l.find? (fun p => p.1 == k2) := by
  induction l with
  | nil => simp [setKeyList, Ne.symm hne]
  | cons p ps ih =>
    by_cases h : p.1 = k
    · simp [setKeyList, h, List.find?_cons, Ne.symm hne]
    · simp [setKeyList, h, List.find?_cons, ih]

theorem get_to_roundtrip (anno : Option Nat) (x y : MemberValue) (v : Json)
    (hwf : x.wf = true) (hsh : x.sameShape y = true)
    (hr : Serializer.getMemberRef anno x = .ok v) :
    Serializer.get_to anno v y = .ok x := by
  cases x with
  | plain k vx =>
    cases y with
    | plain k2 vy =>
      simp only [MemberValue.sameShape, beq_iff_eq] at hsh
      simp only [Serializer.getMemberRef, Exec.ok.injEq] at hr
      simp only [MemberValue.wf, beq_iff_eq] at hwf
      subst hsh hr
      simp [Serializer.get_to, Serializer.convertsTo, hwf]
    | variant arms2 a2 vy => simp [MemberValue.sameShape] at hsh
    | ptr k2 o2 => simp [MemberValue.sameShape] at hsh
  | variant arms act vx =>
    cases anno with
    | none => simp [Serializer.getMemberRef] at hr
    | some i =>
      simp only [Serializer.getMemberRef] at hr
      by_cases hia : act = i
      · rw [if_pos hia] at hr
        cases y with
        | variant arms2 act2 vy =>
          simp only [MemberValue.sameShape, Bool.and_eq_true, beq_iff_eq]
            at hsh
          obtain ⟨h1, h2⟩ := hsh
          simp only [MemberValue.wf, beq_iff_eq] at hwf
          simp only [Exec.ok.injEq] at hr
          subst h1 h2 hr hia
          simp [Serializer.get_to, Serializer.convertsTo, hwf]
        | plain k2 vy => simp [MemberValue.sameShape] at hsh
        | ptr k2 o2 => simp [MemberValue.sameShape] at hsh
      · rw [if_neg hia] at hr
        exact absurd hr (by simp)
  | ptr k o =>
    cases o with
    | none => simp [Serializer.getMemberRef] at hr
    | some vx =>
      cases y with
      | ptr k2 o2 =>
        cases o2 with
        | none => simp [MemberValue.sameShape] at hsh
        | some vy =>
          simp only [MemberValue.sameShape, beq_iff_eq] at hsh
          simp only [Serializer.getMemberRef, Exec.ok.injEq] at hr
          simp only [MemberValue.wf, beq_iff_eq] at hwf
          subst hsh hr
          simp [Serializer.get_to, Serializer.convertsTo, hwf]
      | plain k2 vy => simp [MemberValue.sameShape] at hsh
      | variant arms2 a2 vy => simp [MemberValue.sameShape] at hsh

theorem toDocument_spec (storage : MemberStorage.Storage) (cls : Nat)
    (x : Obj) (key : Serializer.FieldDecl → String)
    (val : Serializer.FieldDecl → Json) :
    ∀ (fields : List Serializer.FieldDecl) (l : List (String × Json)),
    (∀ f ∈ fields, MemberStorage.get storage ⟨cls, f.mid⟩ = .ok (key f)) →
    (∀ f ∈ fields, Serializer.getMemberRef f.anno (x f.mid) = .ok (val f)) →
    (fields.map key).Nodup →
    ∃ l2,
      Serializer.toDocument storage cls x fields (.obj l) = .ok (.obj l2) ∧
      (∀ f ∈ fields, l2.find? (fun p => p.1 == key f) = some (key f, val f)) ∧
      (∀ k2, (∀ f ∈ fields, key f ≠ k2) →
        l2.find? (fun p => p.1 == k2) = l.find? (fun p => p.1 == k2)) := by
  intro fields
  induction fields with
  | nil =>
    intro l _ _ _
    exact ⟨l, rfl, by simp, fun k2 _ => rfl⟩
  | cons f fs ih =>
    intro l hreg hval hnd
    have hstep : Serializer.to_json_simple storage (.obj l) ⟨cls, f.mid⟩
        f.anno x = .ok (.obj (setKeyList (key f) (val f) l)) := by
      simp [Serializer.to_json_simple, Serializer.to_json_simpleCore,
            hreg f (by simp), hval f (by simp), Json.setKeyE]
    rw [List.map_cons, List.nodup_cons] at hnd
    obtain ⟨hkf, hnd2⟩ := hnd
    obtain ⟨l2, hdoc, hfind, hpres⟩ := ih (setKeyList (key f) (val f) l)
      (fun g hg => hreg g (List.mem_cons_of_mem _ hg))
      (fun g hg => hval g (List.mem_cons_of_mem _ hg)) hnd2
    refine ⟨l2, ?_, ?_, ?_⟩
    · simp [Serializer.toDocument, hstep, hdoc]
    · intro g hg
      rcases List.mem_cons.mp hg with heq | hg2
      · subst heq
        have hni : ∀ g2 ∈ fs, key g2 ≠ key g := by
          intro g2 hg2 he
          exact hkf (he ▸ List.mem_map_of_mem key hg2)
        rw [hpres (key g) hni]
        exact find?_setKeyList_same (key g) (val g) l
      · exact hfind g hg2
    · intro k2 hk2
      rw [hpres k2 (fun g hg => hk2 g (List.mem_cons_of_mem _ hg))]
      exact find?_setKeyList_other (key f) k2 (Ne.symm (hk2 f (by simp)))
        (val f) l

theorem fromDocument_spec (storage : MemberStorage.Storage) (cls : Nat)
    (doc : Json) (x : Obj) (key : Serializer.FieldDecl → String)
    (val : Serializer.FieldDecl → Json) :
    ∀ (fields : List Serializer.FieldDecl) (y : Obj),
    (∀ f ∈ fields, MemberStorage.get storage ⟨cls, f.mid⟩ = .ok (key f)) →
    (∀ f ∈ fields, doc.atKey (key f) = .ok (val f)) →
    (∀ f ∈ fields, Serializer.get_to f.anno (val f) (y f.mid) = .ok (x f.mid)) →
    (fields.map Serializer.FieldDecl.mid).Nodup →
    ∃ y2,
      Serializer.fromDocument storage cls doc fields y = .ok y2 ∧
      (∀ f ∈ fields, y2 f.mid = x f.mid) ∧
      (∀ m, (∀ f ∈ fields, f.mid ≠ m) → y2 m = y m) := by
  intro fields
  induction fields with
  | nil =>
    intro y _ _ _ _
    exact ⟨y, rfl, by simp, fun m _ => rfl⟩
  | cons f fs ih =>
    intro y hreg hdoc hgt hnd
    rw [List.map_cons, List.nodup_cons] at hnd
    obtain ⟨hmf, hnd2⟩ := hnd
    have hstep : Serializer.from_json_simple storage doc ⟨cls, f.mid⟩ f.anno y
        = .ok (Obj.update y f.mid (x f.mid)) := by
      simp [Serializer.from_json_simple, Serializer.from_json_simpleCore,
            hreg f (by simp), hdoc f (by simp), hgt f (by simp)]
    have hy1 : ∀ g ∈ fs, (Obj.update y f.mid (x f.mid)) g.mid = y g.mid := by
      intro g hg
      have hne : g.mid ≠ f.mid := by
        intro he
        exact hmf (he ▸ List.mem_map_of_mem Serializer.FieldDecl.mid hg)
      simp [Obj.update, hne]
    obtain ⟨y2, hrun, hfld, hpres⟩ := ih (Obj.update y f.mid (x f.mid))
      (fun g hg => hreg g (List.mem_cons_of_mem _ hg))
      (fun g hg => hdoc g (List.mem_cons_of_mem _ hg))
      (fun g hg => by
        rw [hy1 g hg]
        exact hgt g (List.mem_cons_of_mem _ hg))
      hnd2
    refine ⟨y2, ?_, ?_, ?_⟩
    · simp [Serializer.fromDocument, hstep, hrun]
    · intro g hg
      rcases List.mem_cons.mp hg with heq | hg2
      · subst heq
        have hni : ∀ g2 ∈ fs, g2.mid ≠ g.mid := by
          intro g2 hg2 he
          exact hmf (he ▸ List.mem_map_of_mem Serializer.FieldDecl.mid hg2)
        rw [hpres g.mid hni]
        simp [Obj.update]
      · exact hfld g hg2
    · intro m hm
      rw [hpres m (fun g hg => hm g (List.mem_cons_of_mem _ hg))]
      simp [Obj.update, Ne.symm (hm f (by simp))]

/-- C1: round trip.  For any class whose serialized fields are all registered
(with pairwise distinct keys and member tokens, as SERIALIZER_ADD_MEMBER
produces) and an instance x with valid field values — every variant member
holds the arm its field operation targets, every shared_ptr member is
non-null, every value matches its declared kind — from_json over the document
produced by to_json rebuilds x field-for-field into any destination instance
y whose slots have the same declared shapes. -/
theorem c1_round_trip (storage : MemberStorage.Storage) (cls : Nat)
    (fields : List Serializer.FieldDecl) (x y : Obj)
    (key : Serializer.FieldDecl → String) (val : Serializer.FieldDecl → Json)
    (hreg : ∀ f ∈ fields, MemberStorage.get storage ⟨cls, f.mid⟩ = .ok (key f))
    (hkeys : (fields.map key).Nodup)
    (hmids : (fields.map Serializer.FieldDecl.mid).Nodup)
    (hval : ∀ f ∈ fields, Serializer.getMemberRef f.anno (x f.mid) = .ok (val f))
    (hwf : ∀ f ∈ fields, (x f.mid).wf = true)
    (hsh : ∀ f ∈ fields, (x f.mid).sameShape (y f.mid) = true) :
    ∃ doc y2,
      Serializer.toDocument storage cls x fields (.obj []) = .ok doc ∧
      Serializer.fromDocument storage cls doc fields y = .ok y2 ∧
      ∀ f ∈ fields, y2 f.mid = x f.mid := by
  obtain ⟨l2, hdoc, hfind, _⟩ := toDocument_spec storage cls x key val fields
    [] hreg hval hkeys
  have hat : ∀ f ∈ fields, (Json.obj l2).atKey (key f) = .ok (val f) := by
    intro f hf
    simp [Json.atKey, hfind f hf]
  have hgt : ∀ f ∈ fields,
      Serializer.get_to f.anno (val f) (y f.mid) = .ok (x f.mid) := by
    intro f hf
    exact get_to_roundtrip f.anno (x f.mid) (y f.mid) (val f) (hwf f hf)
      (hsh f hf) (hval f hf)
  obtain ⟨y2, hrun, hfld, _⟩ := fromDocument_spec storage cls (.obj l2) x key
    val fields y hreg hat hgt hmids
  exact ⟨.obj l2, y2, hdoc, hrun, hfld⟩

/- A concrete three-field class used to witness the round trip: a plain
number under key "a", a variant over (number | string) holding arm 1 under
key "b", and a non-null shared_ptr to a number under key "c". -/

abbrev exFields : List Serializer.FieldDecl := [⟨0, none⟩, ⟨1, some 1⟩, ⟨2, none⟩]

abbrev exStorage : MemberStorage.Storage :=
  [(⟨7, 0⟩, "a"), (⟨7, 1⟩, "b"), (⟨7, 2⟩, "c")]

abbrev exX : Obj := fun m =>
  if m = 0 then .plain .knum (.num 3)
  else if m = 1 then .variant [.knum, .kstr] 1 (.str "s")
  else .ptr .knum (some (.num 9))

abbrev exY : Obj := fun m =>
  if m = 0 then .plain .knum (.num 0)
  else if m = 1 then .variant [.knum, .kstr] 1 (.str "t")
  else .ptr .knum (some (.num 0))

abbrev exKey : Serializer.FieldDecl → String := fun f =>
  if f.mid = 0 then "a" else if f.mid = 1 then "b" else "c"

abbrev exVal : Serializer.FieldDecl → Json := fun f =>
  if f.mid = 0 then .num 3 else if f.mid = 1 then .str "s" else .num 9

/-- C1 witness: the three-field class above round-trips. -/
theorem c1_round_trip_witness :
    ∃ doc y2,
      Serializer.toDocument exStorage 7 exX exFields (.obj []) = .ok doc ∧
      Serializer.fromDocument exStorage 7 doc exFields exY = .ok y2 ∧
      ∀ f ∈ exFields, y2 f.mid = exX f.mid :=
  c1_round_trip exStorage 7 exFields exX exY exKey exVal
    (by intro f hf; fin_cases hf <;> rfl)
    (by decide)
    (by decide)
    (by intro f hf; fin_cases hf <;> rfl)
    (by intro f hf; fin_cases hf <;> rfl)
    (by intro f hf; fin_cases hf <;> rfl)
